import Mathlib

/-!
Verification of the flight_trmnl Beast-format pipeline: a shallow embedding of
the wire-format decoder (internal/models/beast.go, beast_constants.go), the
stream client (dump1090 package, readBytesWithEscape / readMessages /
StreamMessages) and the batching collector (tasks package, BeastCollector),
with theorems settling the specification claims about them.

Bytes are modelled as `Nat` values (< 256 where it matters), Go byte slices as
`List Nat`, `time.Time` values as `Int` nanoseconds, and fallible Go functions
as `Except` / an explicit result type that also records runtime panics.
-/

namespace FlightTrmnl

/-! ### Constants (src/internal/models/beast_constants.go) -/

def BeastStartByte : Nat := 0x1A

def BeastTypeModeAC : Nat := 0x31

def BeastTypeModeSShort : Nat := 0x32

def BeastTypeModeSLong : Nat := 0x33

def BeastHeaderLen : Nat := 2

def BeastTimestampLen : Nat := 6

def BeastSignalLen : Nat := 1

def BeastDataLenModeAC : Nat := 2

def BeastDataLenModeSShort : Nat := 7

def BeastDataLenModeSLong : Nat := 14

def BeastTotalLenModeAC : Nat :=
  BeastHeaderLen + BeastTimestampLen + BeastSignalLen + BeastDataLenModeAC

def BeastTotalLenModeSShort : Nat :=
  BeastHeaderLen + BeastTimestampLen + BeastSignalLen + BeastDataLenModeSShort

def BeastTotalLenModeSLong : Nat :=
  BeastHeaderLen + BeastTimestampLen + BeastSignalLen + BeastDataLenModeSLong

/-- GetBeastDataLen from beast_constants.go: data length for a type byte.
The formatted value in the Go error string is elided. -/
def GetBeastDataLen (typeByte : Nat) : Except String Nat :=
  if typeByte = BeastTypeModeAC then .ok BeastDataLenModeAC
  else if typeByte = BeastTypeModeSShort then .ok BeastDataLenModeSShort
  else if typeByte = BeastTypeModeSLong then .ok BeastDataLenModeSLong
  else .error "unknown beast message type"

/-- GetBeastTotalLen from beast_constants.go. -/
def GetBeastTotalLen (typeByte : Nat) : Except String Nat :=
  if typeByte = BeastTypeModeAC then .ok BeastTotalLenModeAC
  else if typeByte = BeastTypeModeSShort then .ok BeastTotalLenModeSShort
  else if typeByte = BeastTypeModeSLong then .ok BeastTotalLenModeSLong
  else .error "unknown beast message type"

/-- IsModeS from beast_constants.go. -/
def IsModeS (typeByte : Nat) : Bool :=
  typeByte = BeastTypeModeSShort || typeByte = BeastTypeModeSLong

/-! ### Decoder (src/internal/models/beast.go) -/

/-- One upper-case hexadecimal digit, for digit values below 16. -/
def hexDigitUpper (n : Nat) : Char :=
  if n < 10 then Char.ofNat (48 + n) else Char.ofNat (55 + n)

/-- Go fmt verb %06X on a value below 16^6: exactly six upper-case,
zero-padded hexadecimal digits.  extractICAO only formats values below 2^19,
so this models the Go call faithfully at every reachable input. -/
def toHex6 (n : Nat) : String :=
  String.mk [hexDigitUpper (n / 16 ^ 5 % 16), hexDigitUpper (n / 16 ^ 4 % 16),
    hexDigitUpper (n / 16 ^ 3 % 16), hexDigitUpper (n / 16 ^ 2 % 16),
    hexDigitUpper (n / 16 % 16), hexDigitUpper (n % 16)]

/-- extractICAO from beast.go.  The Go code guards `len(message) < 3` and then
indexes bytes 0..2; the match below is the same guard-plus-index. -/
def extractICAO (message : List Nat) : String :=
  match message with
  | b0 :: b1 :: b2 :: _ => toHex6 (((b0 &&& 0x07) <<< 16) ||| (b1 <<< 8) ||| b2)
  | _ => ""

/-- determineMessageType from beast.go. -/
def determineMessageType (message : List Nat) : String :=
  match message with
  | [] => "unknown"
  | m0 :: _ =>
    let df := (m0 >>> 3) &&& 0x1F
    if df = 0 ∨ df = 4 ∨ df = 5 ∨ df = 11 then "surveillance"
    else if df = 16 ∨ df = 17 ∨ df = 18 ∨ df = 19 then "extended_squitter"
    else if df = 20 ∨ df = 21 then "comm_b"
    else "other"

/-- The BeastMessage struct from beast.go.  Timestamp (a Go time.Time) is
modelled as nanoseconds since the Unix epoch. -/
structure BeastMessage where
  Timestamp : Int
  SignalLevel : Nat
  Message : List Nat
  MessageTypeCode : Nat
  ICAO : String
  MessageType : String
deriving DecidableEq, Repr

/-- Result of a Go function returning (value, error), with a third case for a
runtime panic (slice index out of range). -/
inductive GoResult (α : Type) where
  | ok : α → GoResult α
  | err : String → GoResult α
  | panics : GoResult α
deriving DecidableEq, Repr

/-- binary.BigEndian on a list of byte values: big-endian accumulation. -/
def beUint (bs : List Nat) : Nat :=
  bs.foldl (fun acc b => acc * 256 + b) 0

/-- ParseBeastMessage from beast.go, with `now` the value of time.Now() in
nanoseconds.

The Go timestamp computation is
  `timestampSeconds := float64(timestampTicks) / 12000000.0`
  `timestamp := time.Now().Add(-time.Duration(timestampSeconds) * time.Second)`
and is modelled with exact integer arithmetic as
`now - (ticks / 12000000) * 1000000000` (Nat division, i.e. floor).  This is
exact for every 48-bit tick value: ticks ≤ 2^48 is exactly representable in
float64; for the quotient q = ticks/12e6 (q < 2^25), a float64 rounding of q
can only land on an integer k if |ticks - 12000000*k| < 12000000 * 2^-28,
which forces the integer difference to be 0 — so the rounded quotient is an
integer exactly when the true quotient is, its truncation toward zero (the Go
float64-to-Duration conversion) always equals floor(ticks/12e6), and the
multiplication by time.Second scales whole seconds to nanoseconds exactly.

The Go code indexes data[1] after checking only `len(data) == 0`, so a 1-byte
slice starting with the marker byte panics with index out of range; the
`.panics` case records that.  After the exact-length check the remaining
accesses (bytes 2..8 and the payload slice) are in bounds, so the final
fallback arm is unreachable. -/
def ParseBeastMessage (data : List Nat) (now : Int) : GoResult BeastMessage :=
  match data with
  | [] => .err "beast message data must not be empty"
  | d0 :: rest =>
    if d0 ≠ BeastStartByte then .err "invalid beast header start byte"
    else
      match rest with
      | [] => .panics
      | typeByte :: body =>
        match GetBeastDataLen typeByte with
        | .error e => .err e
        | .ok expectedDataLen =>
          if data.length ≠ BeastHeaderLen + BeastTimestampLen + BeastSignalLen + expectedDataLen
          then .err "beast message length mismatch"
          else
            match body with
            | t0 :: t1 :: t2 :: t3 :: t4 :: t5 :: sg :: payloadRest =>
              let timestampTicks := beUint [t0, t1, t2, t3, t4, t5]
              let timestampSeconds := timestampTicks / 12000000
              let timestamp := now - (timestampSeconds : Int) * 1000000000
              let message := payloadRest.take expectedDataLen
              if IsModeS typeByte then
                .ok { Timestamp := timestamp, SignalLevel := sg, Message := message,
                      MessageTypeCode := typeByte, ICAO := extractICAO message,
                      MessageType := determineMessageType message }
              else
                .ok { Timestamp := timestamp, SignalLevel := sg, Message := message,
                      MessageTypeCode := typeByte, ICAO := "",
                      MessageType := "mode_ac" }
            | _ => .panics

/-! ### Stream client (dump1090 package: readBytesWithEscape, readMessages,
StreamMessages).  The live socket is modelled as a finite list of pending
bytes; exhausting it plays the role of io.EOF. -/

/-- Error cases of the byte-reading helpers: end of stream (io.EOF, reported
upward by handleReadError as a closed connection) and the sync-loss error
returned on an unescaped marker byte inside a frame body. -/
inductive ReadErr where
  | eof : ReadErr
  | syncLoss : ReadErr
deriving DecidableEq, Repr

/-- readBytesWithEscape(n): read n de-escaped bytes.  A marker byte followed
by a second marker byte collapses to one data byte; a marker byte followed by
anything else is the sync-loss error (the peeked byte stays unconsumed, which
the returned remainder reflects only through the error case here, matching the
Go code where the caller never resumes from this reader position).  Returns
the de-escaped block and the unconsumed remainder of the stream. -/
def readBytesWithEscape : Nat → List Nat → Except ReadErr (List Nat × List Nat)
  | 0, input => .ok ([], input)
  | _ + 1, [] => .error .eof
  | n + 1, b :: rest =>
    if b = BeastStartByte then
      match rest with
      | [] => .error .eof
      | c :: rest2 =>
        if c = BeastStartByte then
          (readBytesWithEscape n rest2).map (fun p => (BeastStartByte :: p.1, p.2))
        else .error .syncLoss
    else
      (readBytesWithEscape n rest).map (fun p => (b :: p.1, p.2))

/-- The wire encoding of a data block: every marker byte is doubled, every
other byte is transmitted as is (the escaping rule of the Beast protocol). -/
def escapeEncode : List Nat → List Nat
  | [] => []
  | b :: bs => (if b = BeastStartByte then [b, b] else [b]) ++ escapeEncode bs

/-- Outcome of one iteration of the readMessages loop: a message handed to the
channel, a local skip that stays on the same connection (stray byte, unknown
type, parse failure), or a return with a non-nil error. -/
inductive IterResult where
  | emit : BeastMessage → List Nat → IterResult
  | skip : List Nat → IterResult
  | fail : ReadErr → IterResult
deriving DecidableEq, Repr

/-- The body-reading half of one readMessages iteration, after the start byte
was consumed and the type byte resolved: look up the total length, read the
de-escaped body, parse, and either send or skip.  A readBytesWithEscape error
passes through handleReadError unchanged (the sync-loss error is not a timeout
and not io.EOF) and makes readMessages return it.  The parser cannot panic
here because the assembled message always has at least two bytes; that arm is
unreachable and mapped to the eof failure. -/
def readMessagesBody (typeByte : Nat) (input : List Nat) (now : Int) : IterResult :=
  match GetBeastTotalLen typeByte with
  | .error _ => .skip input
  | .ok totalLen =>
    match readBytesWithEscape (totalLen - BeastHeaderLen) input with
    | .error e => .fail e
    | .ok (bodyBytes, rest) =>
      let fullMessage := BeastStartByte :: typeByte :: bodyBytes
      match ParseBeastMessage fullMessage now with
      | .ok m => .emit m rest
      | .err _ => .skip rest
      | .panics => .fail .eof

/-- One iteration of the readMessages loop from the dump1090 client: read a
start byte (skipping non-marker bytes), read the type byte with the defensive
escape rule, then read and parse the body. -/
def readMessagesIter (input : List Nat) (now : Int) : IterResult :=
  match input with
  | [] => .fail .eof
  | startByte :: rest =>
    if startByte ≠ BeastStartByte then .skip rest
    else
      match rest with
      | [] => .fail .eof
      | typeByte :: rest2 =>
        if typeByte = BeastStartByte then
          match rest2 with
          | [] => .fail .eof
          | c :: rest3 =>
            if c = BeastStartByte then readMessagesBody BeastStartByte rest3 now
            else .skip rest2
        else readMessagesBody typeByte rest2 now

/-- Result of running readMessages until it returns: the messages sent to the
channel in order, and the error it returned (or fuel exhaustion, standing for
the loop still running). -/
inductive RunResult where
  | failed : List BeastMessage → ReadErr → RunResult
  | running : List BeastMessage → RunResult
deriving DecidableEq, Repr

/-- readMessages as a fueled loop over iterations. -/
def readMessagesGo : Nat → List Nat → Int → RunResult
  | 0, _, _ => .running []
  | fuel + 1, input, now =>
    match readMessagesIter input now with
    | .fail e => .failed [] e
    | .skip rest => readMessagesGo fuel rest now
    | .emit m rest =>
      match readMessagesGo fuel rest now with
      | .failed ms e => .failed (m :: ms) e
      | .running ms => .running (m :: ms)

/-- The connection state of the stream client: how many times connect() has
been run (each reconnect re-establishes the TCP connection). -/
structure ClientConn where
  generation : Nat
deriving DecidableEq, Repr

/-- One pass of the StreamMessages loop on an established connection: run
readMessages; on a non-nil error, closeConnection() runs and the loop
reconnects (generation + 1).  This mirrors the error branch of StreamMessages
exactly: every readMessages error tears the connection down. -/
def streamMessagesRound (conn : ClientConn) (fuel : Nat) (input : List Nat)
    (now : Int) : List BeastMessage × ClientConn :=
  match readMessagesGo fuel input now with
  | .failed ms _ => (ms, { generation := conn.generation + 1 })
  | .running ms => (ms, conn)

/-! ### Batching collector (BeastCollector.Start from the tasks package) -/

/-- State of the Start loop: the accumulating batch, the lastFlushTime basis,
the successive InsertBatch call arguments (each one whole batch), and whether
the loop has returned. -/
structure CollectorState (α : Type) where
  batch : List α
  lastFlushTime : Int
  writes : List (List α)
  stopped : Bool
deriving DecidableEq, Repr

/-- The flushBatch closure from BeastCollector.Start: if the batch is
non-empty, call InsertBatch with it (recorded in writes); on success set
lastFlushTime to time.Now(); in both cases reset the batch.  `insertOk` is the
result InsertBatch returns for this call, `now` the current time. -/
def flushBatch {α : Type} (s : CollectorState α) (now : Int) (insertOk : Bool) :
    CollectorState α :=
  if s.batch.length = 0 then s
  else
    { s with
      writes := s.writes ++ [s.batch],
      lastFlushTime := if insertOk then now else s.lastFlushTime,
      batch := [] }

/-- One wakeup of the Start select loop: a message arrives on the channel
(nil modelled as none), the context is cancelled, or the channel closes.
Each event carries the wall-clock reading at that moment and the result
InsertBatch would return if called. -/
inductive CollectorEvent (α : Type) where
  | msg : Option α → Int → Bool → CollectorEvent α
  | ctxDone : Int → Bool → CollectorEvent α
  | chanClosed : Int → Bool → CollectorEvent α
deriving DecidableEq, Repr

/-- One step of BeastCollector.Start.  A nil message is skipped; otherwise the
message is appended and the batch flushed when it reached batchSize, or else
when flushInterval has elapsed since lastFlushTime.  Cancellation and channel
close flush the remainder and stop the loop.  A stopped loop processes
nothing. -/
def collectorStep {α : Type} (batchSize : Nat) (flushInterval : Int)
    (s : CollectorState α) (e : CollectorEvent α) : CollectorState α :=
  if s.stopped then s
  else
    match e with
    | .ctxDone now ok => { flushBatch s now ok with stopped := true }
    | .chanClosed now ok => { flushBatch s now ok with stopped := true }
    | .msg none _ _ => s
    | .msg (some m) now ok =>
      let s1 := { s with batch := s.batch ++ [m] }
      if batchSize ≤ s1.batch.length then flushBatch s1 now ok
      else if flushInterval ≤ now - s.lastFlushTime then flushBatch s1 now ok
      else s1

/-- A whole run of the Start loop over a finite event sequence. -/
def collectorRun {α : Type} (batchSize : Nat) (flushInterval : Int)
    (s : CollectorState α) (events : List (CollectorEvent α)) : CollectorState α :=
  events.foldl (collectorStep batchSize flushInterval) s

/-- The non-nil messages the Start loop consumes from the channel before the
first terminating event. -/
def consumedSomes {α : Type} : List (CollectorEvent α) → List α
  | [] => []
  | .msg (some m) _ _ :: es => m :: consumedSomes es
  | .msg none _ _ :: es => consumedSomes es
  | .ctxDone _ _ :: _ => []
  | .chanClosed _ _ :: _ => []

/-! ### Helper lemmas -/

lemma exists_cons7 {α : Type} (l : List α) (h : 7 ≤ l.length) :
    ∃ a b c d e f g tail, l = a :: b :: c :: d :: e :: f :: g :: tail := by
  rcases l with _ | ⟨a, l⟩
  · simp only [List.length_nil] at h; omega
  rcases l with _ | ⟨b, l⟩
  · simp only [List.length_cons, List.length_nil] at h; omega
  rcases l with _ | ⟨c, l⟩
  · simp only [List.length_cons, List.length_nil] at h; omega
  rcases l with _ | ⟨d, l⟩
  · simp only [List.length_cons, List.length_nil] at h; omega
  rcases l with _ | ⟨e, l⟩
  · simp only [List.length_cons, List.length_nil] at h; omega
  rcases l with _ | ⟨f, l⟩
  · simp only [List.length_cons, List.length_nil] at h; omega
  rcases l with _ | ⟨g, l⟩
  · simp only [List.length_cons, List.length_nil] at h; omega
  exact ⟨a, b, c, d, e, f, g, l, rfl⟩

/-- Evaluation of ParseBeastMessage on a well-formed frame: marker, known type
byte, six timestamp bytes, signal byte, and a payload of the expected
length. -/
lemma parse_ok_shape (tb dl : Nat) (htb : GetBeastDataLen tb = .ok dl)
    (t0 t1 t2 t3 t4 t5 sg : Nat) (payload : List Nat) (hp : payload.length = dl)
    (now : Int) :
    ParseBeastMessage
        (BeastStartByte :: tb :: t0 :: t1 :: t2 :: t3 :: t4 :: t5 :: sg :: payload) now
      = .ok { Timestamp := now - ((beUint [t0, t1, t2, t3, t4, t5] / 12000000 : Nat) : Int) * 1000000000,
              SignalLevel := sg, Message := payload, MessageTypeCode := tb,
              ICAO := if IsModeS tb then extractICAO payload else "",
              MessageType := if IsModeS tb then determineMessageType payload else "mode_ac" } := by
  have hdl : (tb = BeastTypeModeAC ∧ dl = BeastDataLenModeAC) ∨
      (tb = BeastTypeModeSShort ∧ dl = BeastDataLenModeSShort) ∨
      (tb = BeastTypeModeSLong ∧ dl = BeastDataLenModeSLong) := by
    unfold GetBeastDataLen at htb
    split_ifs at htb with h1 h2 h3 <;> simp_all
  rcases hdl with ⟨rfl, rfl⟩ | ⟨rfl, rfl⟩ | ⟨rfl, rfl⟩ <;>
  · simp only [BeastDataLenModeAC, BeastDataLenModeSShort, BeastDataLenModeSLong] at hp
    have htake := hp ▸ List.take_length payload
    simp [ParseBeastMessage, BeastStartByte, BeastTypeModeAC, BeastTypeModeSShort,
      BeastTypeModeSLong, GetBeastDataLen, IsModeS, BeastHeaderLen, BeastTimestampLen,
      BeastSignalLen, BeastDataLenModeAC, BeastDataLenModeSShort, BeastDataLenModeSLong,
      hp, htake]

/-! ### Claim theorems -/

/-- C10: the claim says ParseBeastMessage is total at its public interface and
returns an error on every malformed input, including a single start byte.  The
code checks only for an empty slice and then reads data[1], so the one-byte
input 0x1A hits an index out of range: the code panics instead of returning an
error. -/
theorem parse_single_marker_panics :
    ParseBeastMessage [BeastStartByte] 0 = .panics := rfl

/-- C2: reading n bytes with escape handling from the wire encoding of an
n-byte block in which every marker byte is doubled returns exactly the
original block and consumes exactly the encoded bytes, for every block,
including blocks containing the marker byte. -/
theorem escape_roundTrip (b suffix : List Nat) :
    readBytesWithEscape b.length (escapeEncode b ++ suffix) = .ok (b, suffix) := by
  induction b generalizing suffix with
  | nil => rfl
  | cons x xs ih =>
    by_cases hx : x = BeastStartByte
    · subst hx
      simp [escapeEncode, readBytesWithEscape, ih, Except.map]
    · simp [escapeEncode, readBytesWithEscape, hx, ih, Except.map]

/-- C1 (counterexample): the decoded message does not carry the 48-bit tick
count through unmodified.  Two valid long-form frames that differ only in
their timestamp bytes (0 ticks versus 6000000 ticks, i.e. half a second)
decode to identical messages, and the decoder output changes when only the
wall clock changes — ParseBeastMessage maps ticks to wall-clock time and drops
sub-second precision. -/
theorem parse_timestamp_not_preserved_cex :
    (ParseBeastMessage
        [0x1A, 0x33, 0x00, 0x00, 0x00, 0x00, 0x00, 0x00, 0x80,
         0x8D, 0x48, 0x40, 0xD6, 0x20, 0x2C, 0xC3, 0x71, 0xC2, 0xD7, 0x20, 0x00, 0x00, 0x00] 0
      = ParseBeastMessage
        [0x1A, 0x33, 0x00, 0x00, 0x00, 0x5B, 0x8D, 0x80, 0x80,
         0x8D, 0x48, 0x40, 0xD6, 0x20, 0x2C, 0xC3, 0x71, 0xC2, 0xD7, 0x20, 0x00, 0x00, 0x00] 0)
    ∧ ([0x1A, 0x33, 0x00, 0x00, 0x00, 0x00, 0x00, 0x00, 0x80,
        0x8D, 0x48, 0x40, 0xD6, 0x20, 0x2C, 0xC3, 0x71, 0xC2, 0xD7, 0x20, 0x00, 0x00, 0x00]
      ≠ ([0x1A, 0x33, 0x00, 0x00, 0x00, 0x5B, 0x8D, 0x80, 0x80,
          0x8D, 0x48, 0x40, 0xD6, 0x20, 0x2C, 0xC3, 0x71, 0xC2, 0xD7, 0x20, 0x00, 0x00, 0x00] : List Nat))
    ∧ ParseBeastMessage
        [0x1A, 0x33, 0x00, 0x00, 0x00, 0x00, 0x00, 0x00, 0x80,
         0x8D, 0x48, 0x40, 0xD6, 0x20, 0x2C, 0xC3, 0x71, 0xC2, 0xD7, 0x20, 0x00, 0x00, 0x00] 0
      ≠ ParseBeastMessage
        [0x1A, 0x33, 0x00, 0x00, 0x00, 0x00, 0x00, 0x00, 0x80,
         0x8D, 0x48, 0x40, 0xD6, 0x20, 0x2C, 0xC3, 0x71, 0xC2, 0xD7, 0x20, 0x00, 0x00, 0x00] 1000000000 := by
  exact ⟨by decide, by decide, by decide⟩

/-- C1 (amended): for every well-formed frame of any of the three types — a
known type byte with its expected payload length — ParseBeastMessage decodes
the 6-byte big-endian field as a tick count but stores only a wall-clock
timestamp derived from it: time.Now() minus the whole-second floor of ticks
divided by 12 MHz.  The tick count itself is not carried through. -/
theorem parse_timestamp_wallclock (tb dl : Nat) (htb : GetBeastDataLen tb = .ok dl)
    (t0 t1 t2 t3 t4 t5 sg : Nat) (payload : List Nat)
    (now : Int) (hp : payload.length = dl) :
    ∃ m, ParseBeastMessage
        (BeastStartByte :: tb ::
          t0 :: t1 :: t2 :: t3 :: t4 :: t5 :: sg :: payload) now = .ok m
      ∧ m.Timestamp
          = now - ((beUint [t0, t1, t2, t3, t4, t5] / 12000000 : Nat) : Int) * 1000000000 := by
  exact ⟨_, parse_ok_shape tb dl htb t0 t1 t2 t3 t4 t5 sg payload hp now, rfl⟩

/-- Witness for the amended C1 theorem at concrete frames of the long-form
and short-form types. -/
theorem parse_timestamp_wallclock_witness :
    (∃ m, ParseBeastMessage
        (BeastStartByte :: BeastTypeModeSLong ::
          0x00 :: 0x00 :: 0x00 :: 0x5B :: 0x8D :: 0x80 :: 0x80 ::
          [0x8D, 0x48, 0x40, 0xD6, 0x20, 0x2C, 0xC3, 0x71, 0xC2, 0xD7, 0x20, 0x00, 0x00, 0x00]) 0
        = .ok m
      ∧ m.Timestamp
          = 0 - ((beUint [0x00, 0x00, 0x00, 0x5B, 0x8D, 0x80] / 12000000 : Nat) : Int) * 1000000000)
    ∧ (∃ m, ParseBeastMessage
        (BeastStartByte :: BeastTypeModeAC ::
          0x00 :: 0x00 :: 0x00 :: 0x5B :: 0x8D :: 0x80 :: 0x80 :: [0x12, 0x34]) 0 = .ok m
      ∧ m.Timestamp
          = 0 - ((beUint [0x00, 0x00, 0x00, 0x5B, 0x8D, 0x80] / 12000000 : Nat) : Int) * 1000000000) :=
  ⟨parse_timestamp_wallclock BeastTypeModeSLong 14 rfl 0x00 0x00 0x00 0x5B 0x8D 0x80 0x80
    [0x8D, 0x48, 0x40, 0xD6, 0x20, 0x2C, 0xC3, 0x71, 0xC2, 0xD7, 0x20, 0x00, 0x00, 0x00]
    0 (by decide),
   parse_timestamp_wallclock BeastTypeModeAC 2 rfl 0x00 0x00 0x00 0x5B 0x8D 0x80 0x80
    [0x12, 0x34] 0 (by decide)⟩

/-- C3 (counterexample): on the byte stream 1A 31 1A 55 the reader hits an
unescaped marker inside the frame body; readMessages returns the sync-loss
error rather than resuming, and the StreamMessages loop closes and
re-establishes the TCP connection (generation 0 becomes 1) — the claim that a
framing error never tears down the connection is false for SyncLoss. -/
theorem syncLoss_closes_connection_cex :
    readMessagesGo 4 [0x1A, 0x31, 0x1A, 0x55] 0 = .failed [] .syncLoss
    ∧ streamMessagesRound { generation := 0 } 4 [0x1A, 0x31, 0x1A, 0x55] 0
        = ([], { generation := 1 }) := by
  exact ⟨rfl, rfl⟩

/-- C3 (amended): a stray byte before a frame and an unknown type byte are
handled locally — one byte (or the marker plus type byte) is discarded and
scanning resumes on the same connection — but an unescaped marker inside a
frame body (SyncLoss) makes readMessages return a non-nil error and
StreamMessages closes and re-establishes the TCP connection. -/
theorem syncLoss_teardown_unknownType_skip (c : Nat) (rest : List Nat) (now : Int)
    (conn : ClientConn) (fuel : Nat) (hc : c ≠ BeastStartByte) :
    readMessagesIter (BeastStartByte :: BeastTypeModeAC :: BeastStartByte :: c :: rest) now
        = .fail .syncLoss
    ∧ streamMessagesRound conn (fuel + 1)
        (BeastStartByte :: BeastTypeModeAC :: BeastStartByte :: c :: rest) now
        = ([], { generation := conn.generation + 1 })
    ∧ (∀ t tail, t ≠ BeastTypeModeAC → t ≠ BeastTypeModeSShort → t ≠ BeastTypeModeSLong →
        t ≠ BeastStartByte → readMessagesIter (BeastStartByte :: t :: tail) now = .skip tail)
    ∧ (∀ b tail, b ≠ BeastStartByte →
        readMessagesIter (b :: tail) now = .skip tail) := by
  have hc26 : ¬(c = 26) := by simpa [BeastStartByte] using hc
  have hiter : readMessagesIter
      (BeastStartByte :: BeastTypeModeAC :: BeastStartByte :: c :: rest) now
      = .fail .syncLoss := by
    simp [readMessagesIter, readMessagesBody, GetBeastTotalLen, readBytesWithEscape,
      BeastStartByte, BeastTypeModeAC, BeastTypeModeSShort, BeastTypeModeSLong,
      BeastTotalLenModeAC, BeastHeaderLen, BeastTimestampLen, BeastSignalLen,
      BeastDataLenModeAC, hc26]
  refine ⟨hiter, ?_, ?_, ?_⟩
  · simp [streamMessagesRound, readMessagesGo, hiter]
  · intro t tail h1 h2 h3 h4
    have h1n : ¬(t = 49) := by simpa [BeastTypeModeAC] using h1
    have h2n : ¬(t = 50) := by simpa [BeastTypeModeSShort] using h2
    have h3n : ¬(t = 51) := by simpa [BeastTypeModeSLong] using h3
    have h4n : ¬(t = 26) := by simpa [BeastStartByte] using h4
    simp [readMessagesIter, readMessagesBody, GetBeastTotalLen, BeastStartByte,
      BeastTypeModeAC, BeastTypeModeSShort, BeastTypeModeSLong, h1n, h2n, h3n, h4n]
  · intro b tail hb
    simp [readMessagesIter, hb]

/-- Witness for the amended C3 theorem at concrete bytes. -/
theorem syncLoss_teardown_unknownType_skip_witness :
    readMessagesIter (BeastStartByte :: BeastTypeModeAC :: BeastStartByte :: 0x55 :: []) 0
        = .fail .syncLoss
    ∧ streamMessagesRound { generation := 0 } 1
        (BeastStartByte :: BeastTypeModeAC :: BeastStartByte :: 0x55 :: []) 0
        = ([], { generation := 1 })
    ∧ readMessagesIter (BeastStartByte :: 0x99 :: [0x07]) 0 = .skip [0x07]
    ∧ readMessagesIter (0x42 :: [0x07]) 0 = .skip [0x07] := by
  have h := syncLoss_teardown_unknownType_skip 0x55 [] 0 { generation := 0 } 0 (by decide)
  exact ⟨h.1, h.2.1, h.2.2.1 0x99 [0x07] (by decide) (by decide) (by decide) (by decide),
    h.2.2.2 0x42 [0x07] (by decide)⟩

/-- On a well-shaped header and exact length, ParseBeastMessage succeeds. -/
lemma parse_ok_of_shape (b : Nat) (t : List Nat) (now : Int)
    (hcond : (b = BeastTypeModeAC ∧ t.length + 2 = 11) ∨
      (b = BeastTypeModeSShort ∧ t.length + 2 = 16) ∨
      (b = BeastTypeModeSLong ∧ t.length + 2 = 23)) :
    ∃ m, ParseBeastMessage (BeastStartByte :: b :: t) now = .ok m := by
  rcases hcond with ⟨rfl, hlen⟩ | ⟨rfl, hlen⟩ | ⟨rfl, hlen⟩
  · obtain ⟨t0, t1, t2, t3, t4, t5, sg, payload, rfl⟩ := exists_cons7 t (by omega)
    refine ⟨_, parse_ok_shape BeastTypeModeAC BeastDataLenModeAC rfl
      t0 t1 t2 t3 t4 t5 sg payload ?_ now⟩
    simp only [List.length_cons] at hlen
    simp only [BeastDataLenModeAC]
    omega
  · obtain ⟨t0, t1, t2, t3, t4, t5, sg, payload, rfl⟩ := exists_cons7 t (by omega)
    refine ⟨_, parse_ok_shape BeastTypeModeSShort BeastDataLenModeSShort rfl
      t0 t1 t2 t3 t4 t5 sg payload ?_ now⟩
    simp only [List.length_cons] at hlen
    simp only [BeastDataLenModeSShort]
    omega
  · obtain ⟨t0, t1, t2, t3, t4, t5, sg, payload, rfl⟩ := exists_cons7 t (by omega)
    refine ⟨_, parse_ok_shape BeastTypeModeSLong BeastDataLenModeSLong rfl
      t0 t1 t2 t3 t4 t5 sg payload ?_ now⟩
    simp only [List.length_cons] at hlen
    simp only [BeastDataLenModeSLong]
    omega

/-- On a bad start byte, an unknown type byte, or a wrong total length,
ParseBeastMessage returns an error. -/
lemma parse_err_of_not_shape (a b : Nat) (t : List Nat) (now : Int)
    (hcond : ¬(a = BeastStartByte ∧
      ((b = BeastTypeModeAC ∧ t.length + 2 = 11) ∨
       (b = BeastTypeModeSShort ∧ t.length + 2 = 16) ∨
       (b = BeastTypeModeSLong ∧ t.length + 2 = 23)))) :
    ∃ e, ParseBeastMessage (a :: b :: t) now = .err e := by
  by_cases ha : a = BeastStartByte
  · subst ha
    by_cases hb1 : b = BeastTypeModeAC
    · subst hb1
      have hlen : ¬(t.length + 1 + 1 = 11) := by
        intro hh; exact hcond ⟨rfl, .inl ⟨rfl, by omega⟩⟩
      refine ⟨"beast message length mismatch", ?_⟩
      simp [ParseBeastMessage, GetBeastDataLen, BeastStartByte, BeastTypeModeAC,
        BeastTypeModeSShort, BeastTypeModeSLong, BeastHeaderLen, BeastTimestampLen,
        BeastSignalLen, BeastDataLenModeAC]
      intro hlen9
      exact absurd hlen9 (by omega)
    · by_cases hb2 : b = BeastTypeModeSShort
      · subst hb2
        have hlen : ¬(t.length + 1 + 1 = 16) := by
          intro hh; exact hcond ⟨rfl, .inr (.inl ⟨rfl, by omega⟩)⟩
        refine ⟨"beast message length mismatch", ?_⟩
        simp [ParseBeastMessage, GetBeastDataLen, BeastStartByte, BeastTypeModeAC,
          BeastTypeModeSShort, BeastTypeModeSLong, BeastHeaderLen, BeastTimestampLen,
          BeastSignalLen, BeastDataLenModeSShort]
        intro hlen14
        exact absurd hlen14 (by omega)
      · by_cases hb3 : b = BeastTypeModeSLong
        · subst hb3
          have hlen : ¬(t.length + 1 + 1 = 23) := by
            intro hh; exact hcond ⟨rfl, .inr (.inr ⟨rfl, by omega⟩)⟩
          refine ⟨"beast message length mismatch", ?_⟩
          simp [ParseBeastMessage, GetBeastDataLen, BeastStartByte, BeastTypeModeAC,
            BeastTypeModeSShort, BeastTypeModeSLong, BeastHeaderLen, BeastTimestampLen,
            BeastSignalLen, BeastDataLenModeSLong]
          intro hlen21
          exact absurd hlen21 (by omega)
        · refine ⟨"unknown beast message type", ?_⟩
          simp [ParseBeastMessage, GetBeastDataLen, BeastStartByte, hb1, hb2, hb3]
  · refine ⟨"invalid beast header start byte", ?_⟩
    simp [ParseBeastMessage, ha]

/-- C4: for every input of length at least two, ParseBeastMessage returns a
decoded message exactly when byte 0 is the marker 0x1A, byte 1 is one of the
three known type tags, and the total length is 2 + 6 + 1 + payload_len of the
type (11, 16 or 23 bytes); in every other such case it returns an error and no
message. -/
theorem parse_accepts_iff (data : List Nat) (now : Int) (h : 2 ≤ data.length) :
    ((∃ m, ParseBeastMessage data now = .ok m) ↔
      (data[0]! = BeastStartByte ∧
        ((data[1]! = BeastTypeModeAC ∧ data.length = 2 + 6 + 1 + 2) ∨
         (data[1]! = BeastTypeModeSShort ∧ data.length = 2 + 6 + 1 + 7) ∨
         (data[1]! = BeastTypeModeSLong ∧ data.length = 2 + 6 + 1 + 14))))
    ∧ ((∃ e, ParseBeastMessage data now = .err e) ↔
      ¬(data[0]! = BeastStartByte ∧
        ((data[1]! = BeastTypeModeAC ∧ data.length = 2 + 6 + 1 + 2) ∨
         (data[1]! = BeastTypeModeSShort ∧ data.length = 2 + 6 + 1 + 7) ∨
         (data[1]! = BeastTypeModeSLong ∧ data.length = 2 + 6 + 1 + 14)))) := by
  rcases data with _ | ⟨a, data⟩
  · simp only [List.length_nil] at h; omega
  rcases data with _ | ⟨b, t⟩
  · simp only [List.length_cons, List.length_nil] at h; omega
  simp only [List.getElem!_cons_zero, List.getElem!_cons_succ, List.length_cons]
  have hiff : (a = BeastStartByte ∧
      ((b = BeastTypeModeAC ∧ t.length + 1 + 1 = 2 + 6 + 1 + 2) ∨
       (b = BeastTypeModeSShort ∧ t.length + 1 + 1 = 2 + 6 + 1 + 7) ∨
       (b = BeastTypeModeSLong ∧ t.length + 1 + 1 = 2 + 6 + 1 + 14))) ↔
      (a = BeastStartByte ∧
      ((b = BeastTypeModeAC ∧ t.length + 2 = 11) ∨
       (b = BeastTypeModeSShort ∧ t.length + 2 = 16) ∨
       (b = BeastTypeModeSLong ∧ t.length + 2 = 23))) := by
    constructor <;>
    · rintro ⟨h0, hd⟩
      exact ⟨h0, by rcases hd with ⟨h1, h2⟩ | ⟨h1, h2⟩ | ⟨h1, h2⟩
        <;> [exact .inl ⟨h1, by omega⟩; exact .inr (.inl ⟨h1, by omega⟩);
             exact .inr (.inr ⟨h1, by omega⟩)]⟩
  rw [hiff]
  constructor
  · constructor
    · rintro ⟨m, hm⟩
      by_contra hcond
      obtain ⟨e, he⟩ := parse_err_of_not_shape a b t now hcond
      rw [hm] at he
      exact absurd he (by simp)
    · rintro ⟨rfl, hd⟩
      exact parse_ok_of_shape b t now hd
  · constructor
    · rintro ⟨e, he⟩ ⟨rfl, hd⟩
      obtain ⟨m, hm⟩ := parse_ok_of_shape b t now hd
      rw [he] at hm
      exact absurd hm (by simp)
    · intro hcond
      exact parse_err_of_not_shape a b t now hcond

/-- Witness for C4 at a concrete valid Mode A/C frame of 11 bytes. -/
theorem parse_accepts_iff_witness :
    (2 ≤ ([0x1A, 0x31, 0, 0, 0, 0, 0, 0, 0x40, 0x12, 0x34] : List Nat).length)
    ∧ ((∃ m, ParseBeastMessage [0x1A, 0x31, 0, 0, 0, 0, 0, 0, 0x40, 0x12, 0x34] 0 = .ok m) ↔
      (([0x1A, 0x31, 0, 0, 0, 0, 0, 0, 0x40, 0x12, 0x34] : List Nat)[0]! = BeastStartByte ∧
        ((([0x1A, 0x31, 0, 0, 0, 0, 0, 0, 0x40, 0x12, 0x34] : List Nat)[1]! = BeastTypeModeAC ∧
            ([0x1A, 0x31, 0, 0, 0, 0, 0, 0, 0x40, 0x12, 0x34] : List Nat).length = 2 + 6 + 1 + 2) ∨
         (([0x1A, 0x31, 0, 0, 0, 0, 0, 0, 0x40, 0x12, 0x34] : List Nat)[1]! = BeastTypeModeSShort ∧
            ([0x1A, 0x31, 0, 0, 0, 0, 0, 0, 0x40, 0x12, 0x34] : List Nat).length = 2 + 6 + 1 + 7) ∨
         (([0x1A, 0x31, 0, 0, 0, 0, 0, 0, 0x40, 0x12, 0x34] : List Nat)[1]! = BeastTypeModeSLong ∧
            ([0x1A, 0x31, 0, 0, 0, 0, 0, 0, 0x40, 0x12, 0x34] : List Nat).length = 2 + 6 + 1 + 14)))) :=
  ⟨by decide, (parse_accepts_iff [0x1A, 0x31, 0, 0, 0, 0, 0, 0, 0x40, 0x12, 0x34] 0 (by decide)).1⟩

/-- The classification table exactly as the spec words it: map the 5-bit
field value through the sets given in the claim.  This is the spec-side
definition compared against determineMessageType from the code. -/
def specClassify (df : Nat) : String :=
  if df ∈ [0, 4, 5, 11] then "surveillance"
  else if df ∈ [16, 17, 18, 19] then "extended_squitter"
  else if df ∈ [20, 21] then "comm_b"
  else "other"

/-- C5: long-form classification reads the top 5 bits of payload byte 0 and
maps them through the claimed table; the empty payload classifies as unknown;
a parsed short-form (Mode A/C) frame always carries the fixed label mode_ac,
and a parsed long-form frame carries exactly determineMessageType of its
payload. -/
theorem classification_law :
    (∀ b0 rest, determineMessageType (b0 :: rest) = specClassify (b0 / 8 % 32))
    ∧ determineMessageType ([] : List Nat) = "unknown"
    ∧ (∀ t0 t1 t2 t3 t4 t5 sg payload now, payload.length = 2 →
        ∃ m, ParseBeastMessage (BeastStartByte :: BeastTypeModeAC ::
            t0 :: t1 :: t2 :: t3 :: t4 :: t5 :: sg :: payload) now = .ok m
          ∧ m.MessageType = "mode_ac")
    ∧ (∀ t0 t1 t2 t3 t4 t5 sg payload now, payload.length = 14 →
        ∃ m, ParseBeastMessage (BeastStartByte :: BeastTypeModeSLong ::
            t0 :: t1 :: t2 :: t3 :: t4 :: t5 :: sg :: payload) now = .ok m
          ∧ m.MessageType = determineMessageType payload) := by
  refine ⟨?_, rfl, ?_, ?_⟩
  · intro b0 rest
    have h1 : (b0 >>> 3) &&& 0x1F = b0 / 8 % 32 := by
      have h := Nat.and_pow_two_sub_one_eq_mod (b0 >>> 3) 5
      simpa [Nat.shiftRight_eq_div_pow] using h
    have hd : b0 / 8 % 32 < 32 := Nat.mod_lt _ (by norm_num)
    simp only [determineMessageType, h1]
    generalize b0 / 8 % 32 = d at hd ⊢
    interval_cases d <;> decide
  · intro t0 t1 t2 t3 t4 t5 sg payload now hp
    exact ⟨_, parse_ok_shape BeastTypeModeAC BeastDataLenModeAC rfl
      t0 t1 t2 t3 t4 t5 sg payload hp now, rfl⟩
  · intro t0 t1 t2 t3 t4 t5 sg payload now hp
    exact ⟨_, parse_ok_shape BeastTypeModeSLong BeastDataLenModeSLong rfl
      t0 t1 t2 t3 t4 t5 sg payload hp now, rfl⟩

/-- Witness for C5 at concrete frames: a Mode A/C frame classifies as mode_ac
and a long-form frame with first payload byte 0x8D (top 5 bits 17) classifies
as extended_squitter. -/
theorem classification_law_witness :
    (∃ m, ParseBeastMessage (BeastStartByte :: BeastTypeModeAC ::
        0 :: 0 :: 0 :: 0 :: 0 :: 0 :: 0x40 :: [0x12, 0x34]) 0 = .ok m
      ∧ m.MessageType = "mode_ac")
    ∧ (∃ m, ParseBeastMessage (BeastStartByte :: BeastTypeModeSLong ::
        0 :: 0 :: 0 :: 0 :: 0 :: 0 :: 0x40 ::
        [0x8D, 0x48, 0x40, 0xD6, 0x20, 0x2C, 0xC3, 0x71, 0xC2, 0xD7, 0x20, 0, 0, 0]) 0 = .ok m
      ∧ m.MessageType
          = determineMessageType
              [0x8D, 0x48, 0x40, 0xD6, 0x20, 0x2C, 0xC3, 0x71, 0xC2, 0xD7, 0x20, 0, 0, 0]) :=
  ⟨classification_law.2.2.1 0 0 0 0 0 0 0x40 [0x12, 0x34] 0 (by decide),
   classification_law.2.2.2 0 0 0 0 0 0 0x40
     [0x8D, 0x48, 0x40, 0xD6, 0x20, 0x2C, 0xC3, 0x71, 0xC2, 0xD7, 0x20, 0, 0, 0] 0 (by decide)⟩

lemma hexDigitUpper_mem (d : Nat) (hd : d < 16) :
    hexDigitUpper d ∈ ("0123456789ABCDEF").data := by
  interval_cases d <;> decide

/-- C6: for every long-form payload of at least 3 bytes, the station address
is the low 3 bits of byte 0 shifted left 16, OR byte 1 shifted left 8, OR
byte 2 — numerically (b0 mod 8)·65536 + b1·256 + b2 — rendered as exactly six
upper-case hexadecimal digits; the payload starting 8D 48 40 yields 054840;
and a parsed short-form frame derives no address while a parsed long-form
frame carries extractICAO of its payload. -/
theorem station_address_law :
    (∀ b0 b1 b2 rest, b1 < 256 → b2 < 256 →
        extractICAO (b0 :: b1 :: b2 :: rest) = toHex6 ((b0 % 8) * 65536 + b1 * 256 + b2)
        ∧ (toHex6 ((b0 % 8) * 65536 + b1 * 256 + b2)).length = 6
        ∧ ∀ ch ∈ (toHex6 ((b0 % 8) * 65536 + b1 * 256 + b2)).data,
            ch ∈ ("0123456789ABCDEF").data)
    ∧ (∀ rest, extractICAO (0x8D :: 0x48 :: 0x40 :: rest) = "054840")
    ∧ (∀ t0 t1 t2 t3 t4 t5 sg payload now, payload.length = 2 →
        ∃ m, ParseBeastMessage (BeastStartByte :: BeastTypeModeAC ::
            t0 :: t1 :: t2 :: t3 :: t4 :: t5 :: sg :: payload) now = .ok m ∧ m.ICAO = "")
    ∧ (∀ t0 t1 t2 t3 t4 t5 sg payload now, payload.length = 14 →
        ∃ m, ParseBeastMessage (BeastStartByte :: BeastTypeModeSLong ::
            t0 :: t1 :: t2 :: t3 :: t4 :: t5 :: sg :: payload) now = .ok m
          ∧ m.ICAO = extractICAO payload) := by
  refine ⟨?_, ?_, ?_, ?_⟩
  · intro b0 b1 b2 rest hb1 hb2
    have e0 : b0 &&& 7 = b0 % 8 := by
      have h := Nat.and_pow_two_sub_one_eq_mod b0 3
      norm_num at h
      exact h
    have harith : ((b0 &&& 0x07) <<< 16) ||| (b1 <<< 8) ||| b2
        = (b0 % 8) * 65536 + b1 * 256 + b2 := by
      rw [show (0x07 : Nat) = 7 from rfl, e0, Nat.shiftLeft_eq, Nat.shiftLeft_eq]
      have h1 : b1 * 2 ^ 8 < 2 ^ 16 := by norm_num; omega
      have ecomm : b0 % 8 * 2 ^ 16 ||| b1 * 2 ^ 8 = b0 % 8 * 2 ^ 16 + b1 * 2 ^ 8 := by
        calc b0 % 8 * 2 ^ 16 ||| b1 * 2 ^ 8
            = 2 ^ 16 * (b0 % 8) ||| b1 * 2 ^ 8 := by rw [Nat.mul_comm]
          _ = 2 ^ 16 * (b0 % 8) + b1 * 2 ^ 8 := (Nat.mul_add_lt_is_or h1 _).symm
          _ = b0 % 8 * 2 ^ 16 + b1 * 2 ^ 8 := by rw [Nat.mul_comm]
      rw [ecomm]
      have h2 : b2 < 2 ^ 8 := by norm_num; omega
      have esplit : b0 % 8 * 2 ^ 16 + b1 * 2 ^ 8 = 2 ^ 8 * (b0 % 8 * 2 ^ 8 + b1) := by ring
      rw [esplit, ← Nat.mul_add_lt_is_or h2 (b0 % 8 * 2 ^ 8 + b1)]
      norm_num
      omega
    refine ⟨by simp [extractICAO, harith], rfl, ?_⟩
    intro ch hch
    simp [toHex6] at hch
    rcases hch with rfl | rfl | rfl | rfl | rfl | rfl
    · exact hexDigitUpper_mem _ (Nat.mod_lt _ (by norm_num))
    · exact hexDigitUpper_mem _ (Nat.mod_lt _ (by norm_num))
    · exact hexDigitUpper_mem _ (Nat.mod_lt _ (by norm_num))
    · exact hexDigitUpper_mem _ (Nat.mod_lt _ (by norm_num))
    · exact hexDigitUpper_mem _ (Nat.mod_lt _ (by norm_num))
    · exact hexDigitUpper_mem _ (Nat.mod_lt _ (by norm_num))
  · intro rest
    rfl
  · intro t0 t1 t2 t3 t4 t5 sg payload now hp
    exact ⟨_, parse_ok_shape BeastTypeModeAC BeastDataLenModeAC rfl
      t0 t1 t2 t3 t4 t5 sg payload hp now, rfl⟩
  · intro t0 t1 t2 t3 t4 t5 sg payload now hp
    exact ⟨_, parse_ok_shape BeastTypeModeSLong BeastDataLenModeSLong rfl
      t0 t1 t2 t3 t4 t5 sg payload hp now, rfl⟩

/-- Witness for C6 at concrete bytes. -/
theorem station_address_law_witness :
    extractICAO (0x8D :: 0x48 :: 0x40 :: [0xD6])
      = toHex6 ((0x8D % 8) * 65536 + 0x48 * 256 + 0x40)
    ∧ (∃ m, ParseBeastMessage (BeastStartByte :: BeastTypeModeAC ::
        0 :: 0 :: 0 :: 0 :: 0 :: 0 :: 0x40 :: [0x12, 0x34]) 0 = .ok m ∧ m.ICAO = "") :=
  ⟨(station_address_law.1 0x8D 0x48 0x40 [0xD6] (by decide) (by decide)).1,
   station_address_law.2.2.1 0 0 0 0 0 0 0x40 [0x12, 0x34] 0 (by decide)⟩

/-- C7: on each message the Start loop appends it and then flushes the whole
accumulated batch as exactly one storage write — one InsertBatch call whose
argument is the entire batch — precisely when the batch size reached the
configured threshold or the configured interval elapsed since the time basis,
whichever occurred first; otherwise no storage call is made. -/
theorem batch_flush_law {α : Type} (batchSize : Nat) (flushInterval : Int)
    (s : CollectorState α) (m : α) (now : Int) (insertOk : Bool)
    (hrun : s.stopped = false) :
    ((batchSize ≤ s.batch.length + 1 ∨ flushInterval ≤ now - s.lastFlushTime) →
      (collectorStep batchSize flushInterval s (.msg (some m) now insertOk)).writes
          = s.writes ++ [s.batch ++ [m]]
        ∧ (collectorStep batchSize flushInterval s (.msg (some m) now insertOk)).batch = [])
    ∧ (¬(batchSize ≤ s.batch.length + 1 ∨ flushInterval ≤ now - s.lastFlushTime) →
      (collectorStep batchSize flushInterval s (.msg (some m) now insertOk)).writes = s.writes
        ∧ (collectorStep batchSize flushInterval s (.msg (some m) now insertOk)).batch
            = s.batch ++ [m]) := by
  constructor
  · intro htrig
    by_cases hsz : batchSize ≤ s.batch.length + 1
    · constructor <;> simp [collectorStep, hrun, flushBatch, hsz]
    · have htime : flushInterval ≤ now - s.lastFlushTime := htrig.resolve_left hsz
      constructor <;> simp [collectorStep, hrun, flushBatch, hsz, htime]
  · intro htrig
    have h1 : ¬(batchSize ≤ s.batch.length + 1) := fun hh => htrig (.inl hh)
    have h2 : ¬(flushInterval ≤ now - s.lastFlushTime) := fun hh => htrig (.inr hh)
    constructor <;> simp [collectorStep, hrun, flushBatch, h1, h2]

/-- Witness for C7: with threshold 1 a single arriving message is flushed as
one whole-batch write, and with a large threshold and unexpired interval no
write happens. -/
theorem batch_flush_law_witness :
    ((collectorStep 1 1000000000 ⟨[], 0, [], false⟩
        (.msg (some (7 : Nat)) 5 true)).writes = [[7]]
      ∧ (collectorStep 1 1000000000 ⟨[], 0, [], false⟩
        (.msg (some (7 : Nat)) 5 true)).batch = [])
    ∧ ((collectorStep 100 1000000000 ⟨[], 0, [], false⟩
        (.msg (some (7 : Nat)) 5 true)).writes = []
      ∧ (collectorStep 100 1000000000 ⟨[], 0, [], false⟩
        (.msg (some (7 : Nat)) 5 true)).batch = [7]) := by
  constructor
  · have h := (batch_flush_law 1 1000000000 ⟨[], 0, [], false⟩ (7 : Nat) 5 true rfl).1
      (Or.inl (by decide))
    simpa using h
  · have h := (batch_flush_law 100 1000000000 ⟨[], 0, [], false⟩ (7 : Nat) 5 true rfl).2
      (by rintro (h | h) <;> revert h <;> decide)
    simpa using h

/-- C8 (counterexample): a time-triggered flush at time 2000000000 whose
storage write fails clears the batch and records the whole-batch write, but
leaves lastFlushTime at 0 — the time basis for the next interval is not reset
after a failed flush, contradicting the claim that it is reset after every
flush. -/
theorem flush_failure_keeps_time_basis_cex :
    collectorStep 100 1000000000 ⟨[7], 0, [], false⟩
        (.msg (some (8 : Nat)) 2000000000 false)
      = ⟨[], 0, [[7, 8]], false⟩
    ∧ (0 : Int) ≠ 2000000000 := by
  exact ⟨rfl, by decide⟩

/-- C8 (amended): after every flush, successful or failed, the batch is
cleared (a failed batch is discarded, never retried) and the loop keeps
running; the time basis is reset to the flush time only when the storage
write succeeds, and is left unchanged when it fails. -/
theorem flush_failure_behavior {α : Type} (batchSize : Nat) (flushInterval : Int)
    (s : CollectorState α) (m : α) (now : Int) (insertOk : Bool)
    (hrun : s.stopped = false)
    (htrig : batchSize ≤ s.batch.length + 1 ∨ flushInterval ≤ now - s.lastFlushTime) :
    (collectorStep batchSize flushInterval s (.msg (some m) now insertOk)).batch = []
    ∧ (collectorStep batchSize flushInterval s (.msg (some m) now insertOk)).writes
        = s.writes ++ [s.batch ++ [m]]
    ∧ (collectorStep batchSize flushInterval s (.msg (some m) now insertOk)).lastFlushTime
        = (if insertOk then now else s.lastFlushTime)
    ∧ (collectorStep batchSize flushInterval s (.msg (some m) now insertOk)).stopped = false := by
  by_cases hsz : batchSize ≤ s.batch.length + 1
  · refine ⟨?_, ?_, ?_, ?_⟩ <;> simp [collectorStep, hrun, flushBatch, hsz]
  · have htime : flushInterval ≤ now - s.lastFlushTime := htrig.resolve_left hsz
    refine ⟨?_, ?_, ?_, ?_⟩ <;> simp [collectorStep, hrun, flushBatch, hsz, htime]

/-- Witness for the amended C8 theorem: a failed time-triggered flush clears
the batch, writes the whole batch, keeps the old time basis, and leaves the
loop running. -/
theorem flush_failure_behavior_witness :
    (collectorStep 100 1000000000 ⟨[(7 : Nat)], 0, [], false⟩
        (.msg (some 8) 2000000000 false)).batch = []
    ∧ (collectorStep 100 1000000000 ⟨[(7 : Nat)], 0, [], false⟩
        (.msg (some 8) 2000000000 false)).writes = [] ++ [[7] ++ [8]]
    ∧ (collectorStep 100 1000000000 ⟨[(7 : Nat)], 0, [], false⟩
        (.msg (some 8) 2000000000 false)).lastFlushTime
        = (if false then 2000000000 else 0)
    ∧ (collectorStep 100 1000000000 ⟨[(7 : Nat)], 0, [], false⟩
        (.msg (some 8) 2000000000 false)).stopped = false :=
  flush_failure_behavior 100 1000000000 ⟨[(7 : Nat)], 0, [], false⟩ 8 2000000000 false
    rfl (Or.inr (by decide))

lemma collectorStep_of_stopped {α : Type} (bs : Nat) (iv : Int) (s : CollectorState α)
    (e : CollectorEvent α) (h : s.stopped = true) : collectorStep bs iv s e = s := by
  simp [collectorStep, h]

lemma collectorRun_of_stopped {α : Type} (bs : Nat) (iv : Int) :
    ∀ (events : List (CollectorEvent α)) (s : CollectorState α), s.stopped = true →
      collectorRun bs iv s events = s := by
  intro events
  induction events with
  | nil => intro s _; rfl
  | cons e es ih =>
    intro s h
    show collectorRun bs iv (collectorStep bs iv s e) es = s
    rw [collectorStep_of_stopped bs iv s e h]
    exact ih s h

lemma flushBatch_inv {α : Type} (s : CollectorState α) (now : Int) (insertOk : Bool) :
    (flushBatch s now insertOk).writes.flatten ++ (flushBatch s now insertOk).batch
      = s.writes.flatten ++ s.batch
    ∧ (flushBatch s now insertOk).batch = []
    ∧ (flushBatch s now insertOk).stopped = s.stopped := by
  by_cases h : s.batch.length = 0
  · have hb : s.batch = [] := List.length_eq_zero.mp h
    refine ⟨?_, ?_, ?_⟩ <;> simp [flushBatch, h, hb]
  · refine ⟨?_, ?_, ?_⟩ <;> simp [flushBatch, h]

lemma collectorStep_msg_stopped {α : Type} (bs : Nat) (iv : Int) (s : CollectorState α)
    (mo : Option α) (now : Int) (insertOk : Bool) (h : s.stopped = false) :
    (collectorStep bs iv s (.msg mo now insertOk)).stopped = false := by
  cases mo with
  | none => simp [collectorStep, h]
  | some m =>
    by_cases h1 : bs ≤ s.batch.length + 1
    · simp [collectorStep, flushBatch, h, h1]
    · by_cases h2 : iv ≤ now - s.lastFlushTime
      · simp [collectorStep, flushBatch, h, h1, h2]
      · simp [collectorStep, flushBatch, h, h1, h2]

lemma collectorStep_msg_content {α : Type} (bs : Nat) (iv : Int) (s : CollectorState α)
    (m : α) (now : Int) (insertOk : Bool) (h : s.stopped = false) :
    (collectorStep bs iv s (.msg (some m) now insertOk)).writes.flatten
        ++ (collectorStep bs iv s (.msg (some m) now insertOk)).batch
      = s.writes.flatten ++ s.batch ++ [m] := by
  by_cases h1 : bs ≤ s.batch.length + 1
  · simp [collectorStep, flushBatch, h, h1]
  · by_cases h2 : iv ≤ now - s.lastFlushTime
    · simp [collectorStep, flushBatch, h, h1, h2]
    · simp [collectorStep, flushBatch, h, h1, h2]

/-- Content invariant of a Start run: what has been written to storage plus
what is still accumulating is exactly the initial content plus every non-nil
message consumed, in order. -/
lemma collectorRun_flatten {α : Type} (bs : Nat) (iv : Int) :
    ∀ (events : List (CollectorEvent α)) (s : CollectorState α), s.stopped = false →
      (collectorRun bs iv s events).writes.flatten ++ (collectorRun bs iv s events).batch
        = s.writes.flatten ++ s.batch ++ consumedSomes events := by
  intro events
  induction events with
  | nil => intro s _; simp [collectorRun, consumedSomes]
  | cons e es ih =>
    intro s h
    cases e with
    | msg mo now insertOk =>
      cases mo with
      | none =>
        have hstep : collectorStep bs iv s (.msg none now insertOk) = s := by
          simp [collectorStep, h]
        have h1 : collectorRun bs iv s (.msg none now insertOk :: es)
            = collectorRun bs iv s es := by
          show collectorRun bs iv (collectorStep bs iv s (.msg none now insertOk)) es = _
          rw [hstep]
        rw [h1]
        exact ih s h
      | some m =>
        have hs2 := collectorStep_msg_stopped bs iv s (some m) now insertOk h
        have h1 : collectorRun bs iv s (.msg (some m) now insertOk :: es)
            = collectorRun bs iv (collectorStep bs iv s (.msg (some m) now insertOk)) es := rfl
        rw [h1]
        rw [ih _ hs2, collectorStep_msg_content bs iv s m now insertOk h]
        show s.writes.flatten ++ s.batch ++ [m] ++ consumedSomes es
          = s.writes.flatten ++ s.batch ++ (m :: consumedSomes es)
        simp [List.append_assoc]
    | ctxDone now insertOk =>
      have hstep : collectorStep bs iv s (.ctxDone now insertOk)
          = { flushBatch s now insertOk with stopped := true } := by
        simp [collectorStep, h]
      have hstop : (collectorStep bs iv s (.ctxDone now insertOk)).stopped = true := by
        rw [hstep]
      have h1 : collectorRun bs iv s (.ctxDone now insertOk :: es)
          = collectorStep bs iv s (.ctxDone now insertOk) := by
        show collectorRun bs iv (collectorStep bs iv s (.ctxDone now insertOk)) es = _
        exact collectorRun_of_stopped bs iv es _ hstop
      rw [h1, hstep]
      show (flushBatch s now insertOk).writes.flatten ++ (flushBatch s now insertOk).batch
        = s.writes.flatten ++ s.batch ++ consumedSomes (CollectorEvent.ctxDone now insertOk :: es)
      rw [(flushBatch_inv s now insertOk).1]
      simp [consumedSomes]
    | chanClosed now insertOk =>
      have hstep : collectorStep bs iv s (.chanClosed now insertOk)
          = { flushBatch s now insertOk with stopped := true } := by
        simp [collectorStep, h]
      have hstop : (collectorStep bs iv s (.chanClosed now insertOk)).stopped = true := by
        rw [hstep]
      have h1 : collectorRun bs iv s (.chanClosed now insertOk :: es)
          = collectorStep bs iv s (.chanClosed now insertOk) := by
        show collectorRun bs iv (collectorStep bs iv s (.chanClosed now insertOk)) es = _
        exact collectorRun_of_stopped bs iv es _ hstop
      rw [h1, hstep]
      show (flushBatch s now insertOk).writes.flatten ++ (flushBatch s now insertOk).batch
        = s.writes.flatten ++ s.batch ++ consumedSomes (CollectorEvent.chanClosed now insertOk :: es)
      rw [(flushBatch_inv s now insertOk).1]
      simp [consumedSomes]

/-- A run that has stopped holds no unflushed batch. -/
lemma collectorRun_stopped_batch {α : Type} (bs : Nat) (iv : Int) :
    ∀ (events : List (CollectorEvent α)) (s : CollectorState α), s.stopped = false →
      (collectorRun bs iv s events).stopped = true →
      (collectorRun bs iv s events).batch = [] := by
  intro events
  induction events with
  | nil =>
    intro s h hc
    have : s.stopped = true := hc
    rw [h] at this
    exact absurd this (by decide)
  | cons e es ih =>
    intro s h hc
    cases e with
    | msg mo now insertOk =>
      have hs2 := collectorStep_msg_stopped bs iv s mo now insertOk h
      exact ih _ hs2 hc
    | ctxDone now insertOk =>
      have hstep : collectorStep bs iv s (.ctxDone now insertOk)
          = { flushBatch s now insertOk with stopped := true } := by
        simp [collectorStep, h]
      have hstop : (collectorStep bs iv s (.ctxDone now insertOk)).stopped = true := by
        rw [hstep]
      have h1 : collectorRun bs iv s (.ctxDone now insertOk :: es)
          = collectorStep bs iv s (.ctxDone now insertOk) := by
        show collectorRun bs iv (collectorStep bs iv s (.ctxDone now insertOk)) es = _
        exact collectorRun_of_stopped bs iv es _ hstop
      rw [h1, hstep]
      exact (flushBatch_inv s now insertOk).2.1
    | chanClosed now insertOk =>
      have hstep : collectorStep bs iv s (.chanClosed now insertOk)
          = { flushBatch s now insertOk with stopped := true } := by
        simp [collectorStep, h]
      have hstop : (collectorStep bs iv s (.chanClosed now insertOk)).stopped = true := by
        rw [hstep]
      have h1 : collectorRun bs iv s (.chanClosed now insertOk :: es)
          = collectorStep bs iv s (.chanClosed now insertOk) := by
        show collectorRun bs iv (collectorStep bs iv s (.chanClosed now insertOk)) es = _
        exact collectorRun_of_stopped bs iv es _ hstop
      rw [h1, hstep]
      exact (flushBatch_inv s now insertOk).2.1

/-- C9: over a whole run of the Start loop from the empty initial state,
terminated by cancellation, the concatenation in order of all batches passed
to InsertBatch equals the sequence of non-nil messages consumed from the
queue: every consumed message lands in exactly one batch, once, with no
reordering, duplication or loss before the storage call. -/
theorem batches_preserve_messages {α : Type} (bs : Nat) (iv t0 : Int)
    (events : List (CollectorEvent α)) (now : Int) (insertOk : Bool) :
    (collectorRun bs iv ⟨[], t0, [], false⟩
        (events ++ [.ctxDone now insertOk])).writes.flatten
      = consumedSomes events := by
  have hsplit : collectorRun bs iv ⟨[], t0, [], false⟩ (events ++ [.ctxDone now insertOk])
      = collectorStep bs iv (collectorRun bs iv ⟨[], t0, [], false⟩ events)
          (.ctxDone now insertOk) := by
    simp [collectorRun, List.foldl_append]
  have hinv := collectorRun_flatten bs iv events ⟨[], t0, [], false⟩ rfl
  have hinv2 : (collectorRun bs iv ⟨[], t0, [], false⟩ events).writes.flatten
      ++ (collectorRun bs iv ⟨[], t0, [], false⟩ events).batch = consumedSomes events := by
    simpa using hinv
  rw [hsplit]
  by_cases hstop : (collectorRun bs iv ⟨[], t0, [], false⟩ events).stopped = true
  · rw [collectorStep_of_stopped bs iv _ _ hstop]
    have hb := collectorRun_stopped_batch bs iv events ⟨[], t0, [], false⟩ rfl hstop
    rw [hb] at hinv2
    simpa using hinv2
  · have hs : (collectorRun bs iv ⟨[], t0, [], false⟩ events).stopped = false := by
      simpa using hstop
    have hstep : collectorStep bs iv (collectorRun bs iv ⟨[], t0, [], false⟩ events)
        (.ctxDone now insertOk)
        = { flushBatch (collectorRun bs iv ⟨[], t0, [], false⟩ events) now insertOk with
            stopped := true } := by
      simp [collectorStep, hs]
    rw [hstep]
    have h1 := (flushBatch_inv (collectorRun bs iv ⟨[], t0, [], false⟩ events) now insertOk).1
    have h2 := (flushBatch_inv (collectorRun bs iv ⟨[], t0, [], false⟩ events) now insertOk).2.1
    calc ({ flushBatch (collectorRun bs iv ⟨[], t0, [], false⟩ events) now insertOk with
            stopped := true } : CollectorState α).writes.flatten
        = (flushBatch (collectorRun bs iv ⟨[], t0, [], false⟩ events) now insertOk).writes.flatten
          ++ (flushBatch (collectorRun bs iv ⟨[], t0, [], false⟩ events) now insertOk).batch := by
          rw [h2]; simp
      _ = (collectorRun bs iv ⟨[], t0, [], false⟩ events).writes.flatten
          ++ (collectorRun bs iv ⟨[], t0, [], false⟩ events).batch := h1
      _ = consumedSomes events := hinv2

end FlightTrmnl
